import Mathlib

/-!
Shallow embedding of the stock-market sentiment agent simulator
(`agent.py`, `market.py`, `simulator.py`, `config.py`) and proofs about it.

Python strings are embedded as `List Char`, Python floats as exact
rationals `ℚ`, Python ints as `ℤ` (or `ℕ` for counters), Python `int(x)`
truncation as `pyInt`, and Python dictionaries with a fixed key set as
structures.  The nondeterministic inputs of the program (the LLM oracle's
response texts and the numpy random-walk draw) are passed as explicit
parameters.
-/

namespace StockSim

/-! ### String helpers mirroring the Python string operations used -/

/-- Python `s.lower()` restricted to the characters the parser compares. -/
def toLowerStr (l : List Char) : List Char := l.map Char.toLower

/-- Python substring test `pat in hay`. -/
def containsSub (hay pat : List Char) : Bool :=
  match hay with
  | [] => pat.isEmpty
  | c :: t => pat.isPrefixOf (c :: t) || containsSub t pat

/-- Python `hay[hay.find(pat):]`, computed by locating `pat` in `lower`
and returning the corresponding suffix of `orig` (the two run in
lockstep; the code searches the lowercased text but slices the
original).  Returns `[]` when `pat` does not occur. -/
def sliceAtPat (pat : List Char) : List Char → List Char → List Char
  | [], _ => []
  | _ :: lt, [] => sliceAtPat pat lt []
  | l :: lt, o :: ot =>
    if pat.isPrefixOf (l :: lt) then o :: ot else sliceAtPat pat lt ot

/-- Python `s.split('\n')[0]`. -/
def takeLine (l : List Char) : List Char := l.takeWhile (fun c => c != '\n')

/-- Python whitespace characters recognised by `str.strip()`. -/
def pySpace (c : Char) : Bool :=
  c == ' ' || c == '\t' || c == '\n' || c == '\r' || c == '\x0b' || c == '\x0c'

/-- Python `s.strip()`. -/
def stripStr (l : List Char) : List Char :=
  ((l.dropWhile pySpace).reverse.dropWhile pySpace).reverse

/-- Fuelled worker for `replaceAll`; the fuel is the length of the list,
which suffices because every step consumes at least one character. -/
def replaceAllAux (pat : List Char) : ℕ → List Char → List Char
  | _, [] => []
  | 0, l => l
  | fuel + 1, c :: t =>
    match pat with
    | [] => c :: t
    | p :: ps =>
      if (p :: ps).isPrefixOf (c :: t) then replaceAllAux pat fuel (t.drop ps.length)
      else c :: replaceAllAux pat fuel t

/-- Python `s.replace(pat, '')`: delete every (left-to-right,
non-overlapping) occurrence of `pat`. -/
def replaceAll (pat l : List Char) : List Char := replaceAllAux pat l.length l

/-- Numeric value of a digit string. -/
def digitsVal (l : List Char) : ℕ :=
  l.foldl (fun acc c => 10 * acc + (c.toNat - 48)) 0

/-- Python `re.findall(r'\d+', s)` followed by taking the first match:
the value of the first maximal digit run, if any. -/
def firstNumber : List Char → Option ℕ
  | [] => none
  | c :: t =>
    if c.isDigit then some (digitsVal ((c :: t).takeWhile Char.isDigit))
    else firstNumber t

/-- Python `int(q)` on a rational: truncation toward zero. -/
def pyInt (q : ℚ) : ℤ := Int.tdiv q.num q.den

/-! ### Keyword constants of the parsers -/

def kwUp : List Char := ("up").toList
def kwPositive : List Char := ("positive").toList
def kwOptimistic : List Char := ("optimistic").toList
def kwDown : List Char := ("down").toList
def kwNegative : List Char := ("negative").toList
def kwPessimistic : List Char := ("pessimistic").toList
def kwBuy : List Char := ("buy").toList
def kwSell : List Char := ("sell").toList
def kwQuantity : List Char := ("quantity:").toList
def kwAction : List Char := ("action:").toList
def kwReason : List Char := ("reason:").toList

/-! ### Agent data model (`agent.py`) -/

/-- Trade action strings produced by the intention parser. -/
inductive Action where
  | buy
  | sell
  | hold
deriving DecidableEq

/-- An entry of `self.opinions` (appended by `_parse_belief_response`). -/
structure Opinion where
  news : String
  response : List Char
  timestamp : ℕ
deriving DecidableEq

/-- The intention dictionary returned by `_parse_intention_response`. -/
structure Intention where
  action : Action
  quantity : ℤ
  reason : List Char
  response : List Char
deriving DecidableEq

/-- A trade record as built by `execute_trade`; `amount` models the
`cost` key of a buy record and the `revenue` key of a sell record. -/
structure Trade where
  action : Action
  quantity : ℤ
  price : ℚ
  amount : ℚ
deriving DecidableEq

/-- The state of an `Agent`.  The `beliefs` dictionary has the fixed keys
`market_outlook` and `risk_tolerance`, the `desires` dictionary the fixed
key `target_return`; they are flattened into fields. -/
structure Agent where
  name : String
  agentType : String
  cash : ℚ
  shares : ℤ
  market_outlook : String
  risk_tolerance : String
  target_return : ℚ
  opinions : List Opinion
  intentions : List Intention
  trade_history : List Trade
deriving DecidableEq

/-- Python `Agent.__init__` followed by `_initialize_personality`: any
type other than `optimistic` and `pessimistic` takes the `else` branch
and receives the calm personality. -/
def Agent.init (name agentType : String) (initial_cash : ℚ) : Agent :=
  let pers : String × String × ℚ :=
    if agentType = ("optimistic") then (("positive"), ("high"), 15 / 100)
    else if agentType = ("pessimistic") then (("negative"), ("low"), 5 / 100)
    else (("neutral"), ("medium"), 8 / 100)
  { name := name
    agentType := agentType
    cash := initial_cash
    shares := 0
    market_outlook := pers.1
    risk_tolerance := pers.2.1
    target_return := pers.2.2
    opinions := []
    intentions := []
    trade_history := [] }

/-- Python `Agent._parse_belief_response(response, news)`: the belief
update performed by `update_beliefs` once the oracle text is in hand.
Note that only the `positive` / `negative` cues are matched against the
lowercased response; `up`, `optimistic`, `down`, `pessimistic` are
matched against the raw response. -/
def parse_belief_response (a : Agent) (response : List Char) (newsContent : String) :
    Agent :=
  let response_lower := toLowerStr response
  let a1 :=
    if containsSub response kwUp || containsSub response_lower kwPositive ||
        containsSub response kwOptimistic then
      if a.agentType = ("optimistic") then { a with market_outlook := ("very_positive") }
      else if a.agentType = ("pessimistic") then
        { a with market_outlook := ("slightly_positive") }
      else a
    else if containsSub response kwDown || containsSub response_lower kwNegative ||
        containsSub response kwPessimistic then
      if a.agentType = ("pessimistic") then { a with market_outlook := ("very_negative") }
      else if a.agentType = ("optimistic") then
        { a with market_outlook := ("slightly_negative") }
      else a
    else a
  { a1 with
    opinions := a1.opinions ++ [⟨newsContent, response, a1.opinions.length⟩] }

/-- Quantity extraction of `_parse_intention_response`: if `quantity:`
occurs in the lowercased response, slice the raw response there, keep the
first line, delete the literal `quantity:` occurrences, and take the
first number; it is kept only when positive.  Otherwise (and on any
failure) the quantity stays `0`. -/
def parsedQuantity (response : List Char) : ℤ :=
  let response_lower := toLowerStr response
  if containsSub response_lower kwQuantity then
    let quantity_str :=
      stripStr (replaceAll kwQuantity (takeLine (sliceAtPat kwQuantity response_lower response)))
    match firstNumber quantity_str with
    | some n => if (n : ℤ) > 0 then (n : ℤ) else 0
    | none => 0
  else 0

/-- Action extraction of `_parse_intention_response`: prefer the
`action:` line of the lowercased response; otherwise scan the whole
lowercased response, checking `buy` first and then `sell`. -/
def parsedAction (response : List Char) : Action :=
  let response_lower := toLowerStr response
  if containsSub response_lower kwAction then
    let action_line := takeLine (sliceAtPat kwAction response_lower response_lower)
    if containsSub action_line kwBuy then Action.buy
    else if containsSub action_line kwSell then Action.sell
    else Action.hold
  else
    if containsSub response_lower kwBuy then Action.buy
    else if containsSub response_lower kwSell then Action.sell
    else Action.hold

/-- Fallback quantity of `_parse_intention_response`, used when the
response did not yield a positive quantity. -/
def fallbackQuantity (agentType : String) (action : Action) (cash : ℚ) (shares : ℤ)
    (current_price : ℚ) : ℤ :=
  match action with
  | Action.buy =>
    let max_shares := pyInt (cash / current_price)
    if max_shares > 0 then
      if agentType = ("optimistic") then
        max 1 (min max_shares (pyInt ((max_shares : ℚ) * (8 / 10))))
      else if agentType = ("pessimistic") then
        max 1 (min max_shares (pyInt ((max_shares : ℚ) * (3 / 10))))
      else
        max 1 (min max_shares (pyInt ((max_shares : ℚ) * (5 / 10))))
    else 0
  | Action.sell =>
    if shares > 0 then
      let q :=
        if agentType = ("pessimistic") then max 1 (pyInt ((shares : ℚ) * (7 / 10)))
        else if agentType = ("optimistic") then max 1 (pyInt ((shares : ℚ) * (2 / 10)))
        else max 1 (pyInt ((shares : ℚ) * (4 / 10)))
      min q shares
    else 0
  | Action.hold => 0

/-- Reason extraction of `_parse_intention_response`.  The presence test
is on the lowercased response but `response.find('reason:')` searches the
raw response: when only a differently-capitalised `reason:` occurs, the
default reason `looking on` survives.  Without any `reason:` the first
100 characters of the raw response are used. -/
def parsedReason (response : List Char) : List Char :=
  let response_lower := toLowerStr response
  if containsSub response_lower kwReason then
    if containsSub response kwReason then
      stripStr (replaceAll kwReason (takeLine (sliceAtPat kwReason response response)))
    else ("looking on").toList
  else response.take 100

/-- Python `Agent._parse_intention_response(response, current_price)`. -/
def parse_intention_response (a : Agent) (response : List Char) (current_price : ℚ) :
    Intention :=
  let q0 := parsedQuantity response
  let action := parsedAction response
  let quantity :=
    if q0 = 0 then fallbackQuantity a.agentType action a.cash a.shares current_price
    else q0
  { action := action
    quantity := quantity
    reason := parsedReason response
    response := response }

/-- Python `Agent.form_intention(current_price)` with the oracle response
passed explicitly: parse, append to `self.intentions`, return both the
intention and the updated agent. -/
def form_intention (a : Agent) (response : List Char) (current_price : ℚ) :
    Intention × Agent :=
  let intention := parse_intention_response a response current_price
  (intention, { a with intentions := a.intentions ++ [intention] })

/-- Python `Agent.execute_trade(intention, current_price)`. -/
def execute_trade (a : Agent) (intention : Intention) (current_price : ℚ) :
    Option Trade × Agent :=
  match intention.action with
  | Action.buy =>
    if intention.quantity > 0 then
      let cost := (intention.quantity : ℚ) * current_price
      if cost ≤ a.cash then
        let trade : Trade := ⟨Action.buy, intention.quantity, current_price, cost⟩
        (some trade,
          { a with
            cash := a.cash - cost
            shares := a.shares + intention.quantity
            trade_history := a.trade_history ++ [trade] })
      else (none, a)
    else (none, a)
  | Action.sell =>
    if intention.quantity > 0 then
      if intention.quantity ≤ a.shares then
        let revenue := (intention.quantity : ℚ) * current_price
        let trade : Trade := ⟨Action.sell, intention.quantity, current_price, revenue⟩
        (some trade,
          { a with
            cash := a.cash + revenue
            shares := a.shares - intention.quantity
            trade_history := a.trade_history ++ [trade] })
      else (none, a)
    else (none, a)
  | Action.hold => (none, a)

/-- Python `Agent.get_portfolio_value(current_price)`. -/
def get_portfolio_value (a : Agent) (current_price : ℚ) : ℚ :=
  a.cash + (a.shares : ℚ) * current_price

/-- Python `Agent.get_sentiment_score()`: the fixed outlook-to-score
dictionary with default `0.0`. -/
def get_sentiment_score (a : Agent) : ℚ :=
  if a.market_outlook = ("very_positive") then 9 / 10
  else if a.market_outlook = ("positive") then 6 / 10
  else if a.market_outlook = ("slightly_positive") then 3 / 10
  else if a.market_outlook = ("neutral") then 0
  else if a.market_outlook = ("slightly_negative") then -(3 / 10)
  else if a.market_outlook = ("negative") then -(6 / 10)
  else if a.market_outlook = ("very_negative") then -(9 / 10)
  else 0

/-! ### Market data model (`market.py`)

The news-template tables only feed the random generator and are not
needed by any claim; `generate_news` is embedded with its random choice
of content and sentiment passed in as parameters.  The random-walk draw
`np.random.normal(0, 0.01)` of `calculate_price` is likewise an explicit
parameter `noise`. -/

/-- A news dictionary. -/
structure News where
  content : String
  sentiment : String
  timestamp : ℕ
deriving DecidableEq

/-- A trade dictionary as it appears in the simulator's per-step trade
list: the record returned by `execute_trade`, tagged in place with the
agent's name and type. -/
structure TradeTagged where
  trade : Trade
  agent_name : String
  agent_type : String
deriving DecidableEq

/-- An entry of `Market.trades_history`. -/
structure TradesRec where
  trades : List TradeTagged
  net_order_flow : ℤ
  timestamp : ℕ
deriving DecidableEq

/-- The per-type market sentiment dictionary. -/
structure Sentiment3 where
  optimistic : ℚ
  pessimistic : ℚ
  calm : ℚ
deriving DecidableEq

/-- The state of `Market`. -/
structure Market where
  initial_price : ℚ
  current_price : ℚ
  price_history : List ℚ
  news_history : List News
  trades_history : List TradesRec
  sentiment_history : List Sentiment3
  timestep : ℕ
  base_value : ℚ
deriving DecidableEq

/-- Python `Market.__init__(initial_price)`. -/
def Market.init (initial_price : ℚ) : Market :=
  { initial_price := initial_price
    current_price := initial_price
    price_history := [initial_price]
    news_history := []
    trades_history := []
    sentiment_history := []
    timestep := 0
    base_value := initial_price }

/-- Python `Market.generate_news()` with the randomly selected content
and sentiment passed in: stamp with the current timestep, append to
`news_history`, return the news. -/
def generate_news (m : Market) (content sentiment : String) : News × Market :=
  let news : News := ⟨content, sentiment, m.timestep⟩
  (news, { m with news_history := m.news_history ++ [news] })

/-- Python `Market.calculate_price(net_order_flow, news_impact)` with
the normal draw `noise` explicit (the code multiplies it by the current
price).  Returns the new price together with the updated market. -/
def calculate_price (m : Market) (noise net_order_flow news_impact : ℚ) :
    ℚ × Market :=
  let random_walk := noise * m.current_price
  let order_impact := net_order_flow * (1 / 10)
  let news_impact_value := news_impact * m.current_price * (5 / 100)
  let price_change := random_walk + order_impact + news_impact_value
  let new_price := m.current_price + price_change
  let new_price := max new_price (m.initial_price * (3 / 10))
  (new_price,
    { m with
      current_price := new_price
      price_history := m.price_history ++ [new_price] })

/-- Python `Market.get_news_impact_score(news)`. -/
def get_news_impact_score (news : News) : ℚ :=
  if news.sentiment = ("positive") then 7 / 10
  else if news.sentiment = ("negative") then -(7 / 10)
  else 0

/-- Net order flow accumulation of `Market.update`. -/
def netOrderFlow (trades : List TradeTagged) : ℤ :=
  trades.foldl
    (fun s t =>
      match t.trade.action with
      | Action.buy => s + t.trade.quantity
      | Action.sell => s - t.trade.quantity
      | Action.hold => s)
    0

/-- Python `Market.update(trades, news)`. -/
def Market.update (m : Market) (noise : ℚ) (trades : List TradeTagged) (news : News) :
    Market :=
  let flow := netOrderFlow trades
  let news_impact := get_news_impact_score news
  let m1 := (calculate_price m noise (flow : ℚ) news_impact).2
  { m1 with
    trades_history := m1.trades_history ++ [⟨trades, flow, m1.timestep⟩]
    timestep := m1.timestep + 1 }

/-- Markets reachable from a constructor call by any sequence of
`calculate_price` / `update` calls. -/
inductive MktReach : Market → Prop
  | init (p : ℚ) : MktReach (Market.init p)
  | price (m : Market) (noise flow impact : ℚ) :
      MktReach m → MktReach (calculate_price m noise flow impact).2
  | upd (m : Market) (noise : ℚ) (trades : List TradeTagged) (news : News) :
      MktReach m → MktReach (Market.update m noise trades news)

/-! ### Configuration (`config.py`) and simulator (`simulator.py`) -/

def AGENT_TYPES : List String := [("optimistic"), ("pessimistic"), ("calm")]

def AGENT_NAMES (t : String) : List String :=
  if t = ("optimistic") then [("optimistic investor A"), ("optimistic investor B")]
  else if t = ("pessimistic") then
    [("pessimistic investor A"), ("pessimistic investor B")]
  else if t = ("calm") then [("calm investor A")]
  else []

/-- Python `MarketSimulator._create_agents()`. -/
def create_agents : List Agent :=
  AGENT_TYPES.flatMap fun t => (AGENT_NAMES t).map fun n => Agent.init n t 10000

/-- An intention tagged with its agent, as collected in step 4 of
`MarketSimulator.step`. -/
structure IntentionTagged where
  agent_name : String
  agent_type : String
  intention : Intention
deriving DecidableEq

/-- An entry of `MarketSimulator._get_agent_states()`. -/
structure AgentView where
  name : String
  agentType : String
  cash : ℚ
  shares : ℤ
  portfolio_value : ℚ
  sentiment_score : ℚ
  market_outlook : String
deriving DecidableEq

/-- The per-step snapshot dictionary recorded in `simulation_history`. -/
structure StepData where
  timestep : ℕ
  price : ℚ
  news : News
  market_sentiment : Sentiment3
  intentions : List IntentionTagged
  trades : List TradeTagged
  agent_states : List AgentView
deriving DecidableEq

/-- The state of `MarketSimulator`. -/
structure Simulator where
  market : Market
  agents : List Agent
  simulation_history : List StepData

/-- Python `MarketSimulator.__init__(initial_price)`. -/
def Simulator.init (initial_price : ℚ) : Simulator :=
  { market := Market.init initial_price
    agents := create_agents
    simulation_history := [] }

/-- Score-bucket accumulation of `_calculate_market_sentiment`: the loop
appends each agent's score to the bucket keyed by its type; an agent type
outside the three keys raises `KeyError`, modelled as `none`. -/
def buildSentimentScores : List Agent → Option (List ℚ × List ℚ × List ℚ)
  | [] => some ([], [], [])
  | a :: rest =>
    let s := get_sentiment_score a
    if a.agentType = ("optimistic") then
      (buildSentimentScores rest).map fun b => (s :: b.1, b.2.1, b.2.2)
    else if a.agentType = ("pessimistic") then
      (buildSentimentScores rest).map fun b => (b.1, s :: b.2.1, b.2.2)
    else if a.agentType = ("calm") then
      (buildSentimentScores rest).map fun b => (b.1, b.2.1, s :: b.2.2)
    else none

/-- Python `np.mean(scores) if scores else 0.0`. -/
def meanOr0 (l : List ℚ) : ℚ := if l = [] then 0 else l.sum / l.length

/-- Python `MarketSimulator._calculate_market_sentiment()` without its
side effect on `sentiment_history` (the caller records the result). -/
def calc_market_sentiment (agents : List Agent) : Option Sentiment3 :=
  (buildSentimentScores agents).map fun b => ⟨meanOr0 b.1, meanOr0 b.2.1, meanOr0 b.2.2⟩

/-- Python `MarketSimulator._get_agent_states()`. -/
def get_agent_states (agents : List Agent) (current_price : ℚ) : List AgentView :=
  agents.map fun a =>
    ⟨a.name, a.agentType, a.cash, a.shares, get_portfolio_value a current_price,
      get_sentiment_score a, a.market_outlook⟩

/-- Oracle inputs of one simulator step: the randomly generated news,
the random-walk draw, and the oracle's belief-prompt and
intention-prompt responses for the agent at each roster position. -/
structure StepInput where
  newsContent : String
  newsSentiment : String
  noise : ℚ
  beliefResp : ℕ → List Char
  intentResp : ℕ → List Char

/-- Step 3 of `MarketSimulator.step`: each agent updates beliefs from
its oracle response (position `i` receives `f i`). -/
def updateBeliefsAll (f : ℕ → List Char) (newsContent : String) :
    ℕ → List Agent → List Agent
  | _, [] => []
  | i, a :: rest =>
    parse_belief_response a (f i) newsContent :: updateBeliefsAll f newsContent (i + 1) rest

/-- Step 4 of `MarketSimulator.step`: each agent forms an intention from
its oracle response. -/
def formIntentionsAll (f : ℕ → List Char) (current_price : ℚ) :
    ℕ → List Agent → List (Intention × Agent)
  | _, [] => []
  | i, a :: rest =>
    form_intention a (f i) current_price :: formIntentionsAll f current_price (i + 1) rest

/-- Step 5 of `MarketSimulator.step`: each agent executes its last
formed intention at the current price. -/
def executeAll (current_price : ℚ) (pairs : List (Intention × Agent)) :
    List (Option Trade × Agent) :=
  pairs.map fun pr => execute_trade pr.2 pr.1 current_price

/-- The tagged trades collected in step 5 (only successful trades). -/
def collectTrades (results : List (Option Trade × Agent)) : List TradeTagged :=
  results.filterMap fun r => r.1.map fun t => ⟨t, r.2.name, r.2.agentType⟩

/-- Python `MarketSimulator.step()` with all nondeterministic inputs in
`inp`; `none` models the `KeyError` crash on an invalid agent type. -/
def Simulator.step (sim : Simulator) (inp : StepInput) : Option Simulator :=
  let nm := generate_news sim.market inp.newsContent inp.newsSentiment
  let news := nm.1
  let mkt1 := nm.2
  match calc_market_sentiment sim.agents with
  | none => none
  | some sent =>
    let mkt2 := { mkt1 with sentiment_history := mkt1.sentiment_history ++ [sent] }
    let agents1 := updateBeliefsAll inp.beliefResp news.content 0 sim.agents
    let pairs := formIntentionsAll inp.intentResp mkt2.current_price 0 agents1
    let intentionsTagged : List IntentionTagged :=
      pairs.map fun pr => ⟨pr.2.name, pr.2.agentType, pr.1⟩
    let results := executeAll mkt2.current_price pairs
    let agents3 := results.map fun r => r.2
    let trades := collectTrades results
    let mkt3 := Market.update mkt2 inp.noise trades news
    let step_data : StepData :=
      ⟨mkt3.timestep, mkt3.current_price, news, sent, intentionsTagged, trades,
        get_agent_states agents3 mkt3.current_price⟩
    some
      { market := mkt3
        agents := agents3
        simulation_history := sim.simulation_history ++ [step_data] }

/-- Running the simulator over a list of step inputs; a crash in any
step aborts the run. -/
def runSteps (sim : Simulator) : List StepInput → Option Simulator
  | [] => some sim
  | inp :: rest =>
    match sim.step inp with
    | none => none
    | some sim1 => runSteps sim1 rest

/-! ### Claim C1: `execute_trade` ledger behaviour -/

/-- Claim C1: for an agent with non-negative cash and shares (at a
non-negative price), a buy mutates state iff `0 < quantity` and
`quantity * price ≤ cash`, debiting cash by exactly `quantity * price`,
crediting shares by exactly `quantity`, appending the trade to the trade
log and returning it; a sell mutates state iff `0 < quantity ≤ shares`,
crediting cash by exactly `quantity * price` and debiting shares by
`quantity`; in every other case (hold included) `execute_trade` returns
`none` and leaves the agent unchanged; cash and shares stay
non-negative. -/
theorem C1_execute_trade (a : Agent) (i : Intention) (p : ℚ)
    (hc : 0 ≤ a.cash) (hs : 0 ≤ a.shares) (hp : 0 ≤ p) :
    (i.action = Action.buy →
      ((0 < i.quantity ∧ (i.quantity : ℚ) * p ≤ a.cash) →
        execute_trade a i p =
          (some ⟨Action.buy, i.quantity, p, (i.quantity : ℚ) * p⟩,
            { a with
              cash := a.cash - (i.quantity : ℚ) * p
              shares := a.shares + i.quantity
              trade_history :=
                a.trade_history ++ [⟨Action.buy, i.quantity, p, (i.quantity : ℚ) * p⟩] })) ∧
      (¬(0 < i.quantity ∧ (i.quantity : ℚ) * p ≤ a.cash) →
        execute_trade a i p = (none, a))) ∧
    (i.action = Action.sell →
      ((0 < i.quantity ∧ i.quantity ≤ a.shares) →
        execute_trade a i p =
          (some ⟨Action.sell, i.quantity, p, (i.quantity : ℚ) * p⟩,
            { a with
              cash := a.cash + (i.quantity : ℚ) * p
              shares := a.shares - i.quantity
              trade_history :=
                a.trade_history ++ [⟨Action.sell, i.quantity, p, (i.quantity : ℚ) * p⟩] })) ∧
      (¬(0 < i.quantity ∧ i.quantity ≤ a.shares) →
        execute_trade a i p = (none, a))) ∧
    (i.action = Action.hold → execute_trade a i p = (none, a)) ∧
    ((execute_trade a i p).1 ≠ none → (execute_trade a i p).2 ≠ a) ∧
    0 ≤ (execute_trade a i p).2.cash ∧ 0 ≤ (execute_trade a i p).2.shares := by
  obtain ⟨act, q, r, resp⟩ := i
  cases act with
  | buy =>
    refine ⟨?_, ?_, ?_, ?_, ?_, ?_⟩
    · intro _
      constructor
      · rintro ⟨h1, h2⟩
        simp [execute_trade, h1, h2]
      · intro hn
        by_cases h1 : 0 < q
        · have h2 : ¬((q : ℚ) * p ≤ a.cash) := fun h2 => hn ⟨h1, h2⟩
          simp [execute_trade, h1, h2]
        · simp [execute_trade, h1]
    · intro hact; simp at hact
    · intro hact; simp at hact
    · intro hne hEq
      by_cases h1 : 0 < q
      · by_cases h2 : (q : ℚ) * p ≤ a.cash
        · have hth := congrArg Agent.trade_history hEq
          simp [execute_trade, h1, h2] at hth
        · simp [execute_trade, h1, h2] at hne
      · simp [execute_trade, h1] at hne
    · by_cases h1 : 0 < q
      · by_cases h2 : (q : ℚ) * p ≤ a.cash
        · simp only [execute_trade, if_pos h1, if_pos h2]
          linarith
        · simpa [execute_trade, h1, h2] using hc
      · simpa [execute_trade, h1] using hc
    · by_cases h1 : 0 < q
      · by_cases h2 : (q : ℚ) * p ≤ a.cash
        · simp only [execute_trade, if_pos h1, if_pos h2]
          omega
        · simpa [execute_trade, h1, h2] using hs
      · simpa [execute_trade, h1] using hs
  | sell =>
    refine ⟨?_, ?_, ?_, ?_, ?_, ?_⟩
    · intro hact; simp at hact
    · intro _
      constructor
      · rintro ⟨h1, h2⟩
        simp [execute_trade, h1, h2]
      · intro hn
        by_cases h1 : 0 < q
        · have h2 : ¬(q ≤ a.shares) := fun h2 => hn ⟨h1, h2⟩
          simp [execute_trade, h1, h2]
        · simp [execute_trade, h1]
    · intro hact; simp at hact
    · intro hne hEq
      by_cases h1 : 0 < q
      · by_cases h2 : q ≤ a.shares
        · have hth := congrArg Agent.trade_history hEq
          simp [execute_trade, h1, h2] at hth
        · simp [execute_trade, h1, h2] at hne
      · simp [execute_trade, h1] at hne
    · by_cases h1 : 0 < q
      · by_cases h2 : q ≤ a.shares
        · simp only [execute_trade, if_pos h1, if_pos h2]
          have hq : (0 : ℚ) ≤ (q : ℚ) := by exact_mod_cast h1.le
          have := mul_nonneg hq hp
          linarith
        · simpa [execute_trade, h1, h2] using hc
      · simpa [execute_trade, h1] using hc
    · by_cases h1 : 0 < q
      · by_cases h2 : q ≤ a.shares
        · simp only [execute_trade, if_pos h1, if_pos h2]
          omega
        · simpa [execute_trade, h1, h2] using hs
      · simpa [execute_trade, h1] using hs
  | hold =>
    refine ⟨?_, ?_, fun _ => rfl, ?_, hc, hs⟩
    · intro hact; simp at hact
    · intro hact; simp at hact
    · intro hne
      simp [execute_trade] at hne

/-- Witness for C1 at a concrete agent, intention and price. -/
theorem C1_execute_trade_witness :
    0 ≤ (execute_trade (Agent.init ("x") ("calm") 100)
        ⟨Action.buy, 2, ("ok").toList, []⟩ 10).2.cash ∧
    0 ≤ (execute_trade (Agent.init ("x") ("calm") 100)
        ⟨Action.buy, 2, ("ok").toList, []⟩ 10).2.shares :=
  (C1_execute_trade (Agent.init ("x") ("calm") 100)
    ⟨Action.buy, 2, ("ok").toList, []⟩ 10 (by decide) (by decide)
    (by decide)).2.2.2.2

/-! ### Claim C10: constructing an agent with an unknown type -/

/-- Counterexample to claim C10: constructing an agent with the unknown
type `weird` succeeds and produces a normally usable agent (it receives
the calm personality defaults), so construction is not a fatal error. -/
theorem C10_counterexample :
    Agent.init ("x") ("weird") 10000 =
      { name := ("x"), agentType := ("weird"), cash := 10000, shares := 0,
        market_outlook := ("neutral"), risk_tolerance := ("medium"),
        target_return := 8 / 100, opinions := [], intentions := [],
        trade_history := [] } :=
  rfl

/-- Claim C10 amended: constructing an `Agent` with any type outside
`optimistic` / `pessimistic` (unknown types included) succeeds, taking
the `else` branch of `_initialize_personality` and producing a fully
initialised agent with the calm personality defaults. -/
theorem C10_unknown_type_yields_calm_agent (name t : String) (cash : ℚ)
    (h1 : t ≠ ("optimistic")) (h2 : t ≠ ("pessimistic")) :
    Agent.init name t cash =
      { name := name, agentType := t, cash := cash, shares := 0,
        market_outlook := ("neutral"), risk_tolerance := ("medium"),
        target_return := 8 / 100, opinions := [], intentions := [],
        trade_history := [] } := by
  simp [Agent.init, h1, h2]

/-- Witness for the amended C10 at a concrete unknown type. -/
theorem C10_unknown_type_witness :
    Agent.init ("y") ("strange") 5 =
      { name := ("y"), agentType := ("strange"), cash := 5, shares := 0,
        market_outlook := ("neutral"), risk_tolerance := ("medium"),
        target_return := 8 / 100, opinions := [], intentions := [],
        trade_history := [] } :=
  C10_unknown_type_yields_calm_agent ("y") ("strange") 5 (by decide) (by decide)

/-! ### Claim C2: belief update policy -/

/-- Counterexample to claim C2: the cue matching is not case-insensitive
for `up` — the response `UP` matches the `up` cue case-insensitively, yet
a fresh optimistic agent's outlook stays `positive` instead of becoming
`very_positive`, because the code tests the `up` cue on the raw
response. -/
theorem C2_counterexample :
    containsSub (toLowerStr (("UP").toList)) kwUp = true ∧
    (parse_belief_response (Agent.init ("o") ("optimistic") 10000) (("UP").toList)
        ("n")).market_outlook = ("positive") ∧
    (("positive") : String) ≠ ("very_positive") := by
  decide

/-- Claim C2 amended: `_parse_belief_response` matches the cues
`positive` / `negative` case-insensitively but `up`, `optimistic`,
`down`, `pessimistic` case-sensitively against the raw response, with the
up-branch checked first; on an up-cue an optimistic agent's outlook
becomes `very_positive` and a pessimistic agent's `slightly_positive`;
on a down-cue (with no up-cue) a pessimistic agent's outlook becomes
`very_negative` and an optimistic agent's `slightly_negative`; any other
agent's outlook, and every agent's outlook when no cue matches, is
unchanged; the opinion log is always appended to and the call is total. -/
theorem C2_parse_belief_policy (a : Agent) (response : List Char) (news : String) :
    ((containsSub response kwUp || containsSub (toLowerStr response) kwPositive ||
        containsSub response kwOptimistic) = true →
      (a.agentType = ("optimistic") →
        (parse_belief_response a response news).market_outlook = ("very_positive")) ∧
      (a.agentType = ("pessimistic") →
        (parse_belief_response a response news).market_outlook = ("slightly_positive")) ∧
      (a.agentType ≠ ("optimistic") → a.agentType ≠ ("pessimistic") →
        (parse_belief_response a response news).market_outlook = a.market_outlook)) ∧
    ((containsSub response kwUp || containsSub (toLowerStr response) kwPositive ||
        containsSub response kwOptimistic) = false →
      (containsSub response kwDown || containsSub (toLowerStr response) kwNegative ||
        containsSub response kwPessimistic) = true →
      (a.agentType = ("pessimistic") →
        (parse_belief_response a response news).market_outlook = ("very_negative")) ∧
      (a.agentType = ("optimistic") →
        (parse_belief_response a response news).market_outlook = ("slightly_negative")) ∧
      (a.agentType ≠ ("optimistic") → a.agentType ≠ ("pessimistic") →
        (parse_belief_response a response news).market_outlook = a.market_outlook)) ∧
    ((containsSub response kwUp || containsSub (toLowerStr response) kwPositive ||
        containsSub response kwOptimistic) = false →
      (containsSub response kwDown || containsSub (toLowerStr response) kwNegative ||
        containsSub response kwPessimistic) = false →
      (parse_belief_response a response news).market_outlook = a.market_outlook) ∧
    (parse_belief_response a response news).opinions =
      a.opinions ++ [⟨news, response, a.opinions.length⟩] ∧
    (parse_belief_response a response news).cash = a.cash ∧
    (parse_belief_response a response news).shares = a.shares := by
  refine ⟨?_, ?_, ?_, ?_, ?_, ?_⟩
  · intro hcue
    refine ⟨?_, ?_, ?_⟩
    · intro ht; simp [parse_belief_response, hcue, ht]
    · intro ht
      have ht2 : ¬(a.agentType = ("optimistic")) := by
        rw [ht]; decide
      simp [parse_belief_response, hcue, ht, ht2]
    · intro ht1 ht2; simp [parse_belief_response, hcue, ht1, ht2]
  · intro hcue1 hcue2
    refine ⟨?_, ?_, ?_⟩
    · intro ht
      have ht2 : ¬(a.agentType = ("optimistic")) := by
        rw [ht]; decide
      simp [parse_belief_response, hcue1, hcue2, ht, ht2]
    · intro ht; simp [parse_belief_response, hcue1, hcue2, ht]
    · intro ht1 ht2; simp [parse_belief_response, hcue1, hcue2, ht1, ht2]
  · intro hcue1 hcue2
    simp [parse_belief_response, hcue1, hcue2]
  · simp only [parse_belief_response]
    split_ifs <;> rfl
  · simp only [parse_belief_response]
    split_ifs <;> rfl
  · simp only [parse_belief_response]
    split_ifs <;> rfl

/-- Witness for the amended C2 at a concrete agent and response. -/
theorem C2_parse_belief_witness :
    (parse_belief_response (Agent.init ("o") ("optimistic") 10000)
        (("price will go up").toList) ("n")).market_outlook = ("very_positive") :=
  ((C2_parse_belief_policy (Agent.init ("o") ("optimistic") 10000)
    (("price will go up").toList) ("n")).1 (by decide)).1 (by decide)

/-! ### Claim C3: action extraction -/

/-- Counterexample to claim C3: in the fallback scan (no `action:` line)
the first positional match does not win — `sell` occurs well before
`buy` in this response, yet the parsed action is `buy`, because the code
checks `buy` membership first. -/
theorem C3_counterexample :
    containsSub (toLowerStr (("i would sell rather than buy").toList)) kwAction = false ∧
    containsSub ((toLowerStr (("i would sell rather than buy").toList)).take 12) kwSell
      = true ∧
    containsSub ((toLowerStr (("i would sell rather than buy").toList)).take 24) kwBuy
      = false ∧
    (parse_intention_response (Agent.init ("c") ("calm") 0)
        (("i would sell rather than buy").toList) 10).action = Action.buy ∧
    Action.buy ≠ Action.sell := by
  decide

/-- Claim C3 amended: if an `action:` line exists (case-insensitively),
the action comes from that line with `buy` taking priority over `sell`
(hold if neither occurs on the line); otherwise the whole lowercased
response is scanned with `buy` taking priority over `sell` regardless of
position; if neither keyword occurs anywhere, the action is `hold`.
`form_intention`'s parsed action is exactly this extraction. -/
theorem C3_parsed_action (a : Agent) (response : List Char) (p : ℚ) :
    (containsSub (toLowerStr response) kwAction = true →
      (containsSub (takeLine (sliceAtPat kwAction (toLowerStr response) (toLowerStr response)))
          kwBuy = true →
        parsedAction response = Action.buy) ∧
      (containsSub (takeLine (sliceAtPat kwAction (toLowerStr response) (toLowerStr response)))
          kwBuy = false →
        containsSub (takeLine (sliceAtPat kwAction (toLowerStr response) (toLowerStr response)))
          kwSell = true →
        parsedAction response = Action.sell) ∧
      (containsSub (takeLine (sliceAtPat kwAction (toLowerStr response) (toLowerStr response)))
          kwBuy = false →
        containsSub (takeLine (sliceAtPat kwAction (toLowerStr response) (toLowerStr response)))
          kwSell = false →
        parsedAction response = Action.hold)) ∧
    (containsSub (toLowerStr response) kwAction = false →
      (containsSub (toLowerStr response) kwBuy = true →
        parsedAction response = Action.buy) ∧
      (containsSub (toLowerStr response) kwBuy = false →
        containsSub (toLowerStr response) kwSell = true →
        parsedAction response = Action.sell) ∧
      (containsSub (toLowerStr response) kwBuy = false →
        containsSub (toLowerStr response) kwSell = false →
        parsedAction response = Action.hold)) ∧
    (parse_intention_response a response p).action = parsedAction response := by
  refine ⟨?_, ?_, rfl⟩
  · intro hline
    refine ⟨?_, ?_, ?_⟩
    · intro hb; simp [parsedAction, hline, hb]
    · intro hb hsl; simp [parsedAction, hline, hb, hsl]
    · intro hb hsl; simp [parsedAction, hline, hb, hsl]
  · intro hline
    refine ⟨?_, ?_, ?_⟩
    · intro hb; simp [parsedAction, hline, hb]
    · intro hb hsl; simp [parsedAction, hline, hb, hsl]
    · intro hb hsl; simp [parsedAction, hline, hb, hsl]

/-- Witness for the amended C3 at a concrete response with an
`action:` line. -/
theorem C3_parsed_action_witness :
    parsedAction (("action: sell\nreason: x").toList) = Action.sell :=
  (((C3_parsed_action (Agent.init ("c") ("calm") 0) (("action: sell\nreason: x").toList)
    10).1 (by decide)).2.1 (by decide) (by decide))

/-! ### Claim C8: reason extraction and the empty-response scenario -/

/-- Counterexample to claim C8: the response `Reason: ok` contains a
reason line (case-insensitively), yet the parsed reason is the default
`looking on` — neither the content of that line nor the first 100
characters of the raw response — because `response.find` looks for the
lowercase literal in the raw response. -/
theorem C8_counterexample :
    containsSub (toLowerStr (("Reason: ok").toList)) kwReason = true ∧
    (parse_intention_response (Agent.init ("c") ("calm") 0) (("Reason: ok").toList)
        10).reason = ("looking on").toList ∧
    ("looking on").toList ≠ (("Reason: ok").toList).take 100 ∧
    ("looking on").toList ≠ ("ok").toList ∧
    ("looking on").toList ≠ (" ok").toList := by
  decide

/-- Claim C8 amended: when `reason:` occurs in the lowercased response
and also literally in the raw response, the parsed reason is the raw
response's first line from `reason:` on, with every literal `reason:`
deleted and surrounding whitespace stripped; when `reason:` occurs only
case-insensitively (not literally), the default reason `looking on`
survives; when `reason:` does not occur at all, the reason is the first
100 characters of the raw response.  For the empty oracle response the
parsed intention is action `hold`, quantity `0`, reason the (empty)
truncated echo of the response, and executing it performs no trade and
leaves the agent unchanged. -/
theorem C8_parsed_reason (a : Agent) (response : List Char) (p : ℚ) :
    (containsSub (toLowerStr response) kwReason = true →
      containsSub response kwReason = true →
      (parse_intention_response a response p).reason =
        stripStr (replaceAll kwReason (takeLine (sliceAtPat kwReason response response)))) ∧
    (containsSub (toLowerStr response) kwReason = true →
      containsSub response kwReason = false →
      (parse_intention_response a response p).reason = ("looking on").toList) ∧
    (containsSub (toLowerStr response) kwReason = false →
      (parse_intention_response a response p).reason = response.take 100) ∧
    (parse_intention_response a ([]) p).action = Action.hold ∧
    (parse_intention_response a ([]) p).quantity = 0 ∧
    (parse_intention_response a ([]) p).reason = ([]).take 100 ∧
    execute_trade a (parse_intention_response a ([]) p) p = (none, a) := by
  refine ⟨?_, ?_, ?_, rfl, rfl, rfl, rfl⟩
  · intro h1 h2; simp [parse_intention_response, parsedReason, h1, h2]
  · intro h1 h2; simp [parse_intention_response, parsedReason, h1, h2]
  · intro h1; simp [parse_intention_response, parsedReason, h1]

/-- Witness for the amended C8 at a concrete response with a reason
line. -/
theorem C8_parsed_reason_witness :
    (parse_intention_response (Agent.init ("c") ("calm") 0)
        (("action: hold\nreason: waiting").toList) 10).reason = ("waiting").toList := by
  have h := ((C8_parsed_reason (Agent.init ("c") ("calm") 0)
    (("action: hold\nreason: waiting").toList) 10).1 (by decide) (by decide))
  rw [h]
  decide

/-! ### Claim C4: fallback quantity policy -/

/-- Python `int()` truncation agrees with the floor on non-negative
rationals. -/
theorem pyInt_eq_floor {q : ℚ} (h : 0 ≤ q) : pyInt q = ⌊q⌋ := by
  rw [pyInt, Rat.floor_def,
    Int.tdiv_eq_ediv (by exact_mod_cast Rat.num_nonneg.mpr h) (by positivity)]

/-- Flooring a non-negative integer scaled by a factor at most one never
exceeds the integer. -/
theorem floor_mul_le {ms : ℤ} {f : ℚ} (h0 : 0 ≤ ms) (h1 : f ≤ 1) :
    ⌊(ms : ℚ) * f⌋ ≤ ms := by
  have h0q : (0 : ℚ) ≤ (ms : ℚ) := by exact_mod_cast h0
  have h : (ms : ℚ) * f ≤ (ms : ℚ) := by nlinarith
  calc ⌊(ms : ℚ) * f⌋ ≤ ⌊((ms : ℚ))⌋ := Int.floor_le_floor h
    _ = ms := Int.floor_intCast ms

/-- Claim C4: when the oracle response yields no explicit positive
quantity, the quantity of the returned intention is derived from the
parsed action and the agent's type — for buy with
`max_affordable = ⌊cash / price⌋ > 0` it is `⌊max_affordable * f⌋` (f =
0.8 optimistic, 0.3 pessimistic, 0.5 calm) but at least 1; for sell with
positive shares it is `⌊shares * g⌋` (g = 0.7 pessimistic, 0.2
optimistic, 0.4 calm), at least 1 and at most the current shares; for
hold it is 0 — and `form_intention` never mutates cash or shares. -/
theorem C4_fallback_quantity (a : Agent) (response : List Char) (p : ℚ)
    (hq : parsedQuantity response = 0) (hc : 0 ≤ a.cash) (hp : 0 < p) :
    (parsedAction response = Action.buy → 0 < ⌊a.cash / p⌋ →
      ((a.agentType = ("optimistic") →
        (parse_intention_response a response p).quantity =
          max 1 ⌊(⌊a.cash / p⌋ : ℚ) * (8 / 10)⌋) ∧
       (a.agentType = ("pessimistic") →
        (parse_intention_response a response p).quantity =
          max 1 ⌊(⌊a.cash / p⌋ : ℚ) * (3 / 10)⌋) ∧
       (a.agentType = ("calm") →
        (parse_intention_response a response p).quantity =
          max 1 ⌊(⌊a.cash / p⌋ : ℚ) * (5 / 10)⌋))) ∧
    (parsedAction response = Action.sell → 0 < a.shares →
      ((a.agentType = ("pessimistic") →
        (parse_intention_response a response p).quantity =
          min (max 1 ⌊(a.shares : ℚ) * (7 / 10)⌋) a.shares) ∧
       (a.agentType = ("optimistic") →
        (parse_intention_response a response p).quantity =
          min (max 1 ⌊(a.shares : ℚ) * (2 / 10)⌋) a.shares) ∧
       (a.agentType = ("calm") →
        (parse_intention_response a response p).quantity =
          min (max 1 ⌊(a.shares : ℚ) * (4 / 10)⌋) a.shares))) ∧
    (parsedAction response = Action.hold →
      (parse_intention_response a response p).quantity = 0) ∧
    (form_intention a response p).2.cash = a.cash ∧
    (form_intention a response p).2.shares = a.shares := by
  have hquant : (parse_intention_response a response p).quantity =
      fallbackQuantity a.agentType (parsedAction response) a.cash a.shares p := by
    simp [parse_intention_response, hq]
  refine ⟨?_, ?_, ?_, rfl, rfl⟩
  · intro hact hms
    have hdiv : (0 : ℚ) ≤ a.cash / p := div_nonneg hc hp.le
    have hpy : pyInt (a.cash / p) = ⌊a.cash / p⌋ := pyInt_eq_floor hdiv
    have hmsq : (0 : ℚ) ≤ ((⌊a.cash / p⌋ : ℤ) : ℚ) := by exact_mod_cast hms.le
    refine ⟨?_, ?_, ?_⟩ <;> intro ht
    · rw [hquant, hact]
      simp only [fallbackQuantity, hpy, ht, if_pos hms, if_pos rfl]
      rw [pyInt_eq_floor (mul_nonneg hmsq (by norm_num)),
        min_eq_right (floor_mul_le hms.le (by norm_num))]
      simp
    · have hne : ("pessimistic" : String) ≠ ("optimistic") := by decide
      rw [hquant, hact]
      simp only [fallbackQuantity, hpy, ht, if_pos hms, if_neg hne, if_pos rfl]
      rw [pyInt_eq_floor (mul_nonneg hmsq (by norm_num)),
        min_eq_right (floor_mul_le hms.le (by norm_num))]
      simp
    · have hne1 : ("calm" : String) ≠ ("optimistic") := by decide
      have hne2 : ("calm" : String) ≠ ("pessimistic") := by decide
      rw [hquant, hact]
      simp only [fallbackQuantity, hpy, ht, if_pos hms, if_neg hne1, if_neg hne2]
      rw [pyInt_eq_floor (mul_nonneg hmsq (by norm_num)),
        min_eq_right (floor_mul_le hms.le (by norm_num))]
  · intro hact hsh
    have hshq : (0 : ℚ) ≤ ((a.shares : ℤ) : ℚ) := by exact_mod_cast hsh.le
    refine ⟨?_, ?_, ?_⟩ <;> intro ht
    · rw [hquant, hact]
      simp only [fallbackQuantity, ht, if_pos hsh, if_pos rfl]
      rw [pyInt_eq_floor (mul_nonneg hshq (by norm_num))]
      simp
    · have hne : ("optimistic" : String) ≠ ("pessimistic") := by decide
      rw [hquant, hact]
      simp only [fallbackQuantity, ht, if_pos hsh, if_neg hne, if_pos rfl]
      rw [pyInt_eq_floor (mul_nonneg hshq (by norm_num))]
      simp
    · have hne1 : ("calm" : String) ≠ ("pessimistic") := by decide
      have hne2 : ("calm" : String) ≠ ("optimistic") := by decide
      rw [hquant, hact]
      simp only [fallbackQuantity, ht, if_pos hsh, if_neg hne1, if_neg hne2]
      rw [pyInt_eq_floor (mul_nonneg hshq (by norm_num))]
  · intro hact
    rw [hquant, hact]
    rfl

/-- Witness for C4 at a concrete optimistic agent, a bare `buy`
response, and price 10. -/
theorem C4_fallback_quantity_witness :
    (parse_intention_response
        { name := ("o"), agentType := ("optimistic"), cash := 100, shares := 0,
          market_outlook := ("positive"), risk_tolerance := ("high"),
          target_return := 15 / 100, opinions := [], intentions := [],
          trade_history := [] } (("buy").toList) 10).quantity =
      max 1 ⌊((⌊(100 : ℚ) / 10⌋ : ℤ) : ℚ) * (8 / 10)⌋ :=
  ((C4_fallback_quantity
    { name := ("o"), agentType := ("optimistic"), cash := 100, shares := 0,
      market_outlook := ("positive"), risk_tolerance := ("high"),
      target_return := 15 / 100, opinions := [], intentions := [],
      trade_history := [] } (("buy").toList) 10 (by decide) (by norm_num)
    (by norm_num)).1 (by decide) (by norm_num)).1 rfl

/-! ### Claims C5 and C6: price floor and no-drift -/

/-- Claim C5: at every reachable market state with a non-negative
initial price, the current price and every element of the price history
are at least `0.3 * initial_price`; and `calculate_price` always commits
exactly the computed new price clamped from below by
`0.3 * initial_price`, for every order flow, news impact and random-walk
draw. -/
theorem C5_price_floor :
    (∀ m : Market, MktReach m → 0 ≤ m.initial_price →
      m.initial_price * (3 / 10) ≤ m.current_price ∧
      ∀ x ∈ m.price_history, m.initial_price * (3 / 10) ≤ x) ∧
    (∀ (m : Market) (noise flow impact : ℚ),
      (calculate_price m noise flow impact).1 =
        max (m.current_price + (noise * m.current_price + flow * (1 / 10) +
          impact * m.current_price * (5 / 100))) (m.initial_price * (3 / 10)) ∧
      (calculate_price m noise flow impact).2.current_price =
        (calculate_price m noise flow impact).1 ∧
      (calculate_price m noise flow impact).2.price_history =
        m.price_history ++ [(calculate_price m noise flow impact).1]) := by
  constructor
  · intro m hreach
    induction hreach with
    | init p =>
      intro hI
      simp only [Market.init] at hI ⊢
      constructor
      · nlinarith
      · intro x hx
        simp only [List.mem_singleton] at hx
        subst hx
        nlinarith
    | price m noise flow impact _ ih =>
      intro hI
      simp only [calculate_price] at hI ⊢
      obtain ⟨h1, h2⟩ := ih hI
      refine ⟨le_max_right _ _, ?_⟩
      intro x hx
      rcases List.mem_append.mp hx with hx | hx
      · exact h2 x hx
      · simp only [List.mem_singleton] at hx
        subst hx
        exact le_max_right _ _
    | upd m noise trades news _ ih =>
      intro hI
      simp only [Market.update, calculate_price] at hI ⊢
      obtain ⟨h1, h2⟩ := ih hI
      refine ⟨le_max_right _ _, ?_⟩
      intro x hx
      rcases List.mem_append.mp hx with hx | hx
      · exact h2 x hx
      · simp only [List.mem_singleton] at hx
        subst hx
        exact le_max_right _ _
  · intro m noise flow impact
    refine ⟨?_, rfl, rfl⟩
    simp only [calculate_price]

/-- Witness for C5 at a freshly constructed market. -/
theorem C5_price_floor_witness :
    (Market.init 100).initial_price * (3 / 10) ≤ (Market.init 100).current_price :=
  (C5_price_floor.1 (Market.init 100) (MktReach.init 100) (by decide)).1

/-- Iterated calls of `calculate_price` with zero noise, zero order flow
and zero news impact. -/
def iterCalcPrice : ℕ → Market → Market
  | 0, m => m
  | n + 1, m => iterCalcPrice n (calculate_price m 0 0 0).2

/-- Claim C6: with the random-walk draw equal to zero, a call of
`calculate_price` whose computed value lies above the price floor
returns exactly `current_price + net_order_flow * 0.1 +
news_impact * current_price * 0.05`; in particular, repeated calls with
zero order flow and zero news impact leave the price exactly at
`current_price`. -/
theorem C6_no_drift :
    (∀ (m : Market) (flow impact : ℚ),
      m.initial_price * (3 / 10) ≤
        m.current_price + (0 * m.current_price + flow * (1 / 10) +
          impact * m.current_price * (5 / 100)) →
      (calculate_price m 0 flow impact).1 =
        m.current_price + flow * (1 / 10) + impact * m.current_price * (5 / 100)) ∧
    (∀ (m : Market) (n : ℕ),
      m.initial_price * (3 / 10) ≤ m.current_price →
      (iterCalcPrice n m).current_price = m.current_price) := by
  have hstep : ∀ m : Market, (calculate_price m 0 0 0).1 =
      max m.current_price (m.initial_price * (3 / 10)) := by
    intro m
    simp only [calculate_price]
    ring_nf
  constructor
  · intro m flow impact h
    simp only [calculate_price]
    rw [max_eq_left h]
    ring
  · intro m n
    induction n generalizing m with
    | zero => intro _; rfl
    | succ k ih =>
      intro h
      have hc : (calculate_price m 0 0 0).2.current_price = m.current_price := by
        have h1 : (calculate_price m 0 0 0).2.current_price =
            (calculate_price m 0 0 0).1 := rfl
        rw [h1, hstep m, max_eq_left h]
      have hi : (calculate_price m 0 0 0).2.initial_price = m.initial_price := rfl
      have := ih ((calculate_price m 0 0 0).2) (by rw [hc, hi]; exact h)
      simpa [iterCalcPrice, hc] using this

/-- Witness for C6 at a concrete market and inputs above the floor. -/
theorem C6_no_drift_witness :
    (calculate_price (Market.init 100) 0 1 0).1 =
      (Market.init 100).current_price + 1 * (1 / 10) +
        0 * (Market.init 100).current_price * (5 / 100) :=
  C6_no_drift.1 (Market.init 100) 1 0 (by norm_num [Market.init])

/-! ### Claim C9: sentiment scores and per-type market sentiment -/

/-- A roster whose agent types all lie in the valid set. -/
def ValidTypes (agents : List Agent) : Prop :=
  ∀ a ∈ agents, a.agentType = ("optimistic") ∨ a.agentType = ("pessimistic") ∨
    a.agentType = ("calm")

instance : DecidablePred ValidTypes := fun agents =>
  List.decidableBAll _ agents

/-- Specification-side per-type score list: the scores of the agents of
one type, in roster order. -/
def typeScores (agents : List Agent) (t : String) : List ℚ :=
  (agents.filter fun a => a.agentType == t).map get_sentiment_score

/-- On a valid roster the bucket construction of
`_calculate_market_sentiment` produces exactly the per-type score lists. -/
theorem buildSentimentScores_eq (agents : List Agent) (hV : ValidTypes agents) :
    buildSentimentScores agents =
      some (typeScores agents ("optimistic"), typeScores agents ("pessimistic"),
        typeScores agents ("calm")) := by
  induction agents with
  | nil => simp [buildSentimentScores, typeScores]
  | cons a rest ih =>
    have hVrest : ValidTypes rest := fun x hx => hV x (List.mem_cons_of_mem a hx)
    have ha := hV a (List.mem_cons_self a rest)
    rcases ha with ht | ht | ht <;>
      simp [buildSentimentScores, typeScores, ht, ih hVrest, List.filter_cons]

/-- Claim C9: `get_sentiment_score` maps the seven outlook strings to
0.9, 0.6, 0.3, 0.0, -0.3, -0.6, -0.9 (0 for anything else), always lies
in [-1, 1], and on any roster of valid agent types
`_calculate_market_sentiment` yields for each type the arithmetic mean
of that type's scores, or 0 when the type has no agents. -/
theorem C9_sentiment (a : Agent) (agents : List Agent) (hV : ValidTypes agents) :
    (-1 ≤ get_sentiment_score a ∧ get_sentiment_score a ≤ 1) ∧
    ((a.market_outlook = ("very_positive") → get_sentiment_score a = 9 / 10) ∧
     (a.market_outlook = ("positive") → get_sentiment_score a = 6 / 10) ∧
     (a.market_outlook = ("slightly_positive") → get_sentiment_score a = 3 / 10) ∧
     (a.market_outlook = ("neutral") → get_sentiment_score a = 0) ∧
     (a.market_outlook = ("slightly_negative") → get_sentiment_score a = -(3 / 10)) ∧
     (a.market_outlook = ("negative") → get_sentiment_score a = -(6 / 10)) ∧
     (a.market_outlook = ("very_negative") → get_sentiment_score a = -(9 / 10))) ∧
    calc_market_sentiment agents =
      some
        ⟨(if typeScores agents ("optimistic") = [] then 0
          else (typeScores agents ("optimistic")).sum /
            (typeScores agents ("optimistic")).length),
         (if typeScores agents ("pessimistic") = [] then 0
          else (typeScores agents ("pessimistic")).sum /
            (typeScores agents ("pessimistic")).length),
         (if typeScores agents ("calm") = [] then 0
          else (typeScores agents ("calm")).sum /
            (typeScores agents ("calm")).length)⟩ := by
  refine ⟨?_, ?_, ?_⟩
  · unfold get_sentiment_score
    split_ifs <;> norm_num
  · refine ⟨?_, ?_, ?_, ?_, ?_, ?_, ?_⟩ <;> intro h <;> simp [get_sentiment_score, h]
  · rw [calc_market_sentiment, buildSentimentScores_eq agents hV]
    simp [meanOr0]

/-- Witness for C9 at a concrete agent and the empty roster. -/
theorem C9_sentiment_witness :
    calc_market_sentiment [] = some ⟨0, 0, 0⟩ := by
  have h := (C9_sentiment (Agent.init ("a") ("optimistic") 10000) [] (by decide)).2.2
  rw [h]
  simp [typeScores]

/-! ### Claim C7: history alignment across simulator steps -/

/-- Belief updates never change the agent's type. -/
theorem parse_belief_response_agentType (a : Agent) (r : List Char) (n : String) :
    (parse_belief_response a r n).agentType = a.agentType := by
  simp only [parse_belief_response]
  split_ifs <;> rfl

/-- Trade execution never changes the agent's type. -/
theorem execute_trade_agentType (a : Agent) (i : Intention) (p : ℚ) :
    (execute_trade a i p).2.agentType = a.agentType := by
  obtain ⟨act, q, r, resp⟩ := i
  cases act <;> simp only [execute_trade] <;> split_ifs <;> rfl

/-- The belief-update pass preserves the roster's type list. -/
theorem updateBeliefsAll_types (f : ℕ → List Char) (n : String) :
    ∀ (i : ℕ) (l : List Agent),
      (updateBeliefsAll f n i l).map Agent.agentType = l.map Agent.agentType := by
  intro i l
  induction l generalizing i with
  | nil => rfl
  | cons a rest ih =>
    simp [updateBeliefsAll, parse_belief_response_agentType, ih]

/-- The intention-forming pass preserves the roster's type list. -/
theorem formIntentionsAll_types (f : ℕ → List Char) (p : ℚ) :
    ∀ (i : ℕ) (l : List Agent),
      ((formIntentionsAll f p i l).map fun pr => pr.2.agentType) =
        l.map Agent.agentType := by
  intro i l
  induction l generalizing i with
  | nil => rfl
  | cons a rest ih =>
    simp [formIntentionsAll, form_intention, ih]

/-- The trade-execution pass preserves the agents' type list. -/
theorem executeAll_types (p : ℚ) (pairs : List (Intention × Agent)) :
    (((executeAll p pairs).map fun r => r.2).map Agent.agentType) =
      pairs.map fun pr => pr.2.agentType := by
  induction pairs with
  | nil => rfl
  | cons pr rest ih =>
    simp only [executeAll, List.map_cons, List.map_map] at ih ⊢
    rw [execute_trade_agentType]
    exact congrArg _ ih

/-- Transport of roster validity along an equal type list. -/
theorem validTypes_of_map_eq {l1 l2 : List Agent}
    (h : l2.map Agent.agentType = l1.map Agent.agentType) (hV : ValidTypes l1) :
    ValidTypes l2 := by
  intro a ha
  have hmem : a.agentType ∈ l2.map Agent.agentType := List.mem_map_of_mem _ ha
  rw [h] at hmem
  obtain ⟨b, hb, hba⟩ := List.mem_map.mp hmem
  rcases hV b hb with h1 | h1 | h1
  · exact Or.inl (hba ▸ h1)
  · exact Or.inr (Or.inl (hba ▸ h1))
  · exact Or.inr (Or.inr (hba ▸ h1))

/-- One simulator step on a valid roster succeeds, keeps the roster
valid, appends exactly one price, increments the timestep once and
appends exactly one snapshot. -/
theorem step_lengths (sim : Simulator) (inp : StepInput) (hV : ValidTypes sim.agents) :
    ∃ sim', sim.step inp = some sim' ∧ ValidTypes sim'.agents ∧
      sim'.market.price_history.length = sim.market.price_history.length + 1 ∧
      sim'.market.timestep = sim.market.timestep + 1 ∧
      sim'.simulation_history.length = sim.simulation_history.length + 1 := by
  have hcs : calc_market_sentiment sim.agents =
      some ⟨meanOr0 (typeScores sim.agents ("optimistic")),
        meanOr0 (typeScores sim.agents ("pessimistic")),
        meanOr0 (typeScores sim.agents ("calm"))⟩ := by
    rw [calc_market_sentiment, buildSentimentScores_eq sim.agents hV]
    rfl
  simp only [Simulator.step, hcs]
  refine ⟨_, rfl, ?_, ?_, ?_, ?_⟩
  · apply validTypes_of_map_eq ?_ hV
    rw [executeAll_types, formIntentionsAll_types, updateBeliefsAll_types]
  · simp [Market.update, calculate_price, generate_news]
  · simp [Market.update, calculate_price, generate_news]
  · simp

/-- Running any list of step inputs from a valid roster succeeds and
advances the three history counters in lockstep. -/
theorem runSteps_lengths (inputs : List StepInput) :
    ∀ sim : Simulator, ValidTypes sim.agents →
      ∃ sim', runSteps sim inputs = some sim' ∧ ValidTypes sim'.agents ∧
        sim'.market.price_history.length =
          sim.market.price_history.length + inputs.length ∧
        sim'.market.timestep = sim.market.timestep + inputs.length ∧
        sim'.simulation_history.length =
          sim.simulation_history.length + inputs.length := by
  induction inputs with
  | nil =>
    intro sim hV
    exact ⟨sim, rfl, hV, by simp, by simp, by simp⟩
  | cons inp rest ih =>
    intro sim hV
    obtain ⟨s1, h1, hV1, hp1, ht1, hh1⟩ := step_lengths sim inp hV
    obtain ⟨s2, h2, hV2, hp2, ht2, hh2⟩ := ih s1 hV1
    refine ⟨s2, ?_, hV2, ?_, ?_, ?_⟩
    · simp [runSteps, h1, h2]
    · rw [hp2, hp1]; simp; omega
    · rw [ht2, ht1]; simp; omega
    · rw [hh2, hh1]; simp; omega

/-- Claim C7: after `N` completed steps from a fresh simulator the price
history has `N + 1` entries, the timestep is `N` and the simulation
history has `N` entries; and `price_history.length = timestep + 1` is an
invariant of `runSteps` from construction onward. -/
theorem C7_history_alignment :
    (∀ (p : ℚ) (inputs : List StepInput),
      ∃ sim', runSteps (Simulator.init p) inputs = some sim' ∧
        sim'.market.price_history.length = inputs.length + 1 ∧
        sim'.market.timestep = inputs.length ∧
        sim'.simulation_history.length = inputs.length ∧
        sim'.market.price_history.length = sim'.market.timestep + 1) ∧
    (∀ (sim : Simulator) (inputs : List StepInput) (sim' : Simulator),
      ValidTypes sim.agents →
      runSteps sim inputs = some sim' →
      sim.market.price_history.length = sim.market.timestep + 1 →
      sim'.market.price_history.length = sim'.market.timestep + 1) := by
  constructor
  · intro p inputs
    have hV0 : ValidTypes (Simulator.init p).agents := by
      show ValidTypes create_agents
      decide
    obtain ⟨s, hs, _, hp, ht, hh⟩ := runSteps_lengths inputs (Simulator.init p) hV0
    have hpl : (Simulator.init p).market.price_history.length = 1 := rfl
    have htl : (Simulator.init p).market.timestep = 0 := rfl
    have hhl : (Simulator.init p).simulation_history.length = 0 := rfl
    refine ⟨s, hs, ?_, ?_, ?_, ?_⟩ <;> omega
  · intro sim inputs sim' hV hrun hinv
    obtain ⟨s, hs, _, hp, ht, _⟩ := runSteps_lengths inputs sim hV
    rw [hrun] at hs
    obtain rfl := Option.some.inj hs
    omega

/-- Witness for C7 at a fresh simulator and the empty input list. -/
theorem C7_history_alignment_witness :
    ∃ sim', runSteps (Simulator.init 100) [] = some sim' ∧
      sim'.market.price_history.length = ([] : List StepInput).length + 1 ∧
      sim'.market.timestep = ([] : List StepInput).length ∧
      sim'.simulation_history.length = ([] : List StepInput).length ∧
      sim'.market.price_history.length = sim'.market.timestep + 1 :=
  C7_history_alignment.1 100 []

end StockSim
